import Mathlib

/-!
Verification of the sample Python scripts shipped with the synx repository.

The four scripts are embedded shallowly:
  * `src/examples/python/valid.py` — memoized `fibonacci` and `is_prime`;
  * `src/source/tests/files/python/valid/calculator.py` — the `Calculator` class;
  * `src/source/tests/files/python/invalid/bad_code.py` — the `badCalculator` class;
  * `src/test.py` — naive `calculate_fibonacci`, `is_prime`, and its literal text.

Python's unbounded recursion is embedded with an explicit fuel argument
(`Option.none` = fuel exhausted, the diverging runs never return a value);
mutable state (the memo dictionary, the calculator history) is passed
explicitly; each script's `__main__` block becomes a pure function from
`Unit` to the list of lines it prints.
-/

namespace Synx

/-! ### valid.py -/

/-- Mathematical Fibonacci, used as the specification value. -/
def fibSpec : Nat → Int
  | 0 => 0
  | 1 => 1
  | n + 2 => fibSpec (n + 1) + fibSpec n

/-- Lookup in the memo dictionary, embedded as an association list
(`memo[n]` / `n in memo` of valid.py). -/
def memoLookup (k : Int) : List (Int × Int) → Option Int
  | [] => Option.none
  | (k1, v) :: rest => if k1 = k then some v else memoLookup k rest

/-- Shallow embedding of the inner `fib_memo` of valid.py.  The Python code is
`if n not in memo: memo[n] = fib_memo(n-1) + fib_memo(n-2); return memo[n]`,
with the two recursive calls evaluated left to right on the shared mutable
dictionary.  The first argument is fuel making the unbounded recursion total:
`Option.none` means the fuel ran out before the recursion bottomed out. -/
def fibMemo : Nat → Int → List (Int × Int) → Option (Int × List (Int × Int))
  | 0, _, _ => Option.none
  | fuel + 1, n, memo =>
    match memoLookup n memo with
    | some v => some (v, memo)
    | Option.none =>
      match fibMemo fuel (n - 1) memo with
      | Option.none => Option.none
      | some (v1, memo1) =>
        match fibMemo fuel (n - 2) memo1 with
        | Option.none => Option.none
        | some (v2, memo2) => some (v1 + v2, (n, v1 + v2) :: memo2)

/-- The fresh dictionary `memo = \x7b0: 0, 1: 1\x7d` built on each call of
`fibonacci` in valid.py. -/
def initMemo : List (Int × Int) := [(0, 0), (1, 1)]

/-- Shallow embedding of `fibonacci` of valid.py: build the fresh memo and run
`fib_memo n`.  The extra fuel argument makes the recursion total. -/
def fibonacci (fuel : Nat) (n : Int) : Option Int :=
  (fibMemo fuel n initMemo).map Prod.fst

/-- Structural integer square root, upward search: starting from a candidate
`i` with `i * i ≤ n`, climb while the next candidate still squares below `n`.
The fuel only bounds the climb; evaluation stops after about `√n` steps. -/
def isqrtAux (n : Nat) : Nat → Nat → Nat
  | 0, i => i
  | fuel + 1, i => if (i + 1) * (i + 1) ≤ n then isqrtAux n fuel (i + 1) else i

/-- Exact integer square root (kernel-computable); models the Python
expression `int(num**0.5)`, whose float power is exact on the sizes the
scripts use. -/
def isqrt (n : Nat) : Nat := isqrtAux n n 0

/-- Shallow embedding of `is_prime`, identical in valid.py and test.py:
`if num < 2: return False`, then trial division by every
`i in range(2, int(num**0.5) + 1)`, returning False on the first divisor. -/
def is_prime (num : Int) : Bool :=
  if num < 2 then false
  else (List.range' 2 (isqrt num.toNat + 1 - 2)).all fun i => !((num % (i : Int)) == 0)

/-! ### calculator.py -/

/-- State of the `Calculator` class of calculator.py: the mutable
`self.history` list.  Python is dynamically typed, so the numeric type is a
parameter: the type hints say `float` (embedded as `ℚ` in the theorems),
while `main()` passes `int` arguments. -/
structure Calculator (α : Type) where
  history : List α

/-- The `__init__` method: a clean history. -/
def Calculator.init {α : Type} : Calculator α := ⟨[]⟩

/-- The `add` method: `result = a + b; self.history.append(result); return
result`, returning the value together with the updated state. -/
def Calculator.add {α : Type} [Add α] (c : Calculator α) (a b : α) : α × Calculator α :=
  let result := a + b
  (result, ⟨c.history ++ [result]⟩)

/-- The `subtract` method: `result = a - b; self.history.append(result);
return result`. -/
def Calculator.subtract {α : Type} [Sub α] (c : Calculator α) (a b : α) : α × Calculator α :=
  let result := a - b
  (result, ⟨c.history ++ [result]⟩)

/-- The `get_last_result` method: `if not self.history: return None; return
self.history[-1]`.  The state is returned unchanged to make the absence of
mutation visible. -/
def Calculator.get_last_result {α : Type} (c : Calculator α) : Option α × Calculator α :=
  if c.history.isEmpty then (Option.none, c) else (c.history.getLast?, c)

/-! ### bad_code.py -/

/-- State of the `badCalculator` class of bad_code.py (numeric type a
parameter, as for `Calculator`). -/
structure badCalculator (α : Type) where
  history : List α

/-- The `Add` method of bad_code.py: `result=x+y; self.history.append(result);
return result`. -/
def badCalculator.Add {α : Type} [Add α] (c : badCalculator α) (x y : α) : α × badCalculator α :=
  let result := x + y
  (result, ⟨c.history ++ [result]⟩)

/-- The `subtract` method of bad_code.py. -/
def badCalculator.subtract {α : Type} [Sub α] (c : badCalculator α) (x y : α) : α × badCalculator α :=
  let result := x - y
  (result, ⟨c.history ++ [result]⟩)

/-- A Python value as `process_input` discriminates it: `None`, a `str`, or
anything else (the `type(value) == str` test fails). -/
inductive PyValue where
  | pyNone
  | pyStr (s : String)
  | pyOther

/-- A value `process_input` can return: the int literal `0`, a float, or the
`None` sentinel (also produced by falling off the end of the method). -/
inductive PyResult where
  | intVal (n : Int)
  | floatVal (q : ℚ)
  | noneVal

/-- Shallow embedding of `badCalculator.process_input`.  The builtin
`float(value)` is not part of this repository, so string-to-float conversion
is a parameter: `floatConv s = some q` when `float(s)` succeeds with `q` and
`Option.none` when it raises.  The second component is what the method
prints (the bare `except` clause prints an error message).  `self` is never
read, so it is not a parameter. -/
def badCalculator.process_input (floatConv : String → Option ℚ) (value : PyValue) :
    PyResult × List String :=
  match value with
  | PyValue.pyNone => (PyResult.intVal 0, [])
  | PyValue.pyStr s =>
    match floatConv s with
    | some q => (PyResult.floatVal q, [])
    | Option.none => (PyResult.noneVal, ["Error converting value"])
  | PyValue.pyOther => (PyResult.noneVal, [])

/-! ### test.py -/

/-- Shallow embedding of `calculate_fibonacci` of test.py: `if n <= 1: return
n; return calculate_fibonacci(n-1) + calculate_fibonacci(n-2)`, with fuel for
the unbounded recursion. -/
def calculate_fibonacci : Nat → Int → Option Int
  | 0, _ => Option.none
  | fuel + 1, n =>
    if n ≤ 1 then some n
    else
      match calculate_fibonacci fuel (n - 1), calculate_fibonacci fuel (n - 2) with
      | some a, some b => some (a + b)
      | _, _ => Option.none

/-- The literal text of src/test.py, line by line. -/
def testPyLines : List String :=
  [ "#!/usr/bin/env python3"
  , "\"\"\""
  , "This is a test file for Synx validation."
  , "It contains a deliberate syntax error to test validation."
  , "\"\"\""
  , ""
  , "def calculate_fibonacci(n):"
  , "    \"\"\"Calculate the nth Fibonacci number recursively.\"\"\""
  , "    if n <= 1:"
  , "        return n"
  , "    else:"
  , "        return calculate_fibonacci(n-1) + calculate_fibonacci(n-2)"
  , "    "
  , "# This function has a missing closing parenthesis above"
  , ""
  , "def is_prime(num):"
  , "    \"\"\"Check if a number is prime.\"\"\""
  , "    if num < 2:"
  , "        return False"
  , "    for i in range(2, int(num**0.5) + 1):"
  , "        if num % i == 0:"
  , "            return False"
  , "    return True"
  , ""
  , "if __name__ == \"__main__\":"
  , "    # This will never execute due to the syntax error above"
  , "    print(\"Testing fibonacci calculation:\")"
  , "    for i in range(10):"
  , "        print(f\"Fibonacci({i}) = {calculate_fibonacci(i)}\")"
  , "        "
  , "    print(\"\\nTesting prime numbers:\")"
  , "    for i in range(20):"
  , "        if is_prime(i):"
  , "            print(f\"{i} is prime\")" ]

/-- Scan a character list keeping the depth of open round parentheses:
`Option.none` when a `)` appears with no `(` open, otherwise the final
depth. -/
def parenScan : List Char → Int → Option Int
  | [], depth => some depth
  | c :: cs, depth =>
    if c = '(' then parenScan cs (depth + 1)
    else if c = ')' then
      if depth ≤ 0 then Option.none else parenScan cs (depth - 1)
    else parenScan cs depth

/-- Round parentheses of a file are balanced: every `)` closes an open `(`
and none stays open at the end.  A file with a missing closing parenthesis
fails this check. -/
def parensBalanced (lines : List String) : Bool :=
  match parenScan (String.join lines).data 0 with
  | some d => d == 0
  | Option.none => false

/-! ### the `__main__` blocks as pure output functions -/

/-- Render an `Option` the way Python prints the value (`None` for the
sentinel).  The mains pass `int`s, so the payload is an `Int`. -/
def pyOptionStr (o : Option Int) : String :=
  match o with
  | some v => toString v
  | Option.none => "None"

/-- The `__main__` block of valid.py as a pure function: the list of printed
lines.  The fuel `i + 1` is enough for `fibonacci` on input `i`, so the
`getD 0` default is never taken. -/
def runValid (_ : Unit) : List String :=
  ["Fibonacci Sequence:"] ++
  ((List.range 10).map fun i =>
    let v := (fibonacci (i + 1) (i : Int)).getD 0
    s!"fibonacci({i}) = {v}") ++
  ["\nPrime Fibonacci Numbers:"] ++
  ((List.range 20).filterMap fun i =>
    let fib := (fibonacci (i + 1) (i : Int)).getD 0
    if is_prime fib then some s!"fibonacci({i}) = {fib} is prime" else Option.none)

/-- The `main()` of calculator.py as a pure function (the literals `5`, `3`,
`10`, `4` are Python `int`s). -/
def runCalculator (_ : Unit) : List String :=
  let r1 := Calculator.add (Calculator.init (α := Int)) 5 3
  let r2 := Calculator.subtract r1.2 10 4
  let r3 := Calculator.get_last_result r2.2
  let a := r1.1
  let b := r2.1
  let c := pyOptionStr r3.1
  [s!"5 + 3 = {a}", s!"10 - 4 = {b}", s!"Last result: {c}"]

/-- The `main()` of bad_code.py as a pure function (`calc.history[-1]` is
taken on a one-element history, so the `getLast?` is always `some`). -/
def runBadCode (_ : Unit) : List String :=
  let r1 := badCalculator.Add (⟨[]⟩ : badCalculator Int) 5 3
  let s := toString r1.1
  let lastv := pyOptionStr r1.2.history.getLast?
  ["5 + 3 = " ++ s, "Last result: " ++ lastv]

/-- The `__main__` block of test.py as a pure function: what the script
prints once it parses. -/
def runTestPy (_ : Unit) : List String :=
  ["Testing fibonacci calculation:"] ++
  ((List.range 10).map fun i =>
    let v := (calculate_fibonacci (i + 1) (i : Int)).getD 0
    s!"Fibonacci({i}) = {v}") ++
  ["\nTesting prime numbers:"] ++
  ((List.range 20).filterMap fun i =>
    if is_prime (i : Int) then some s!"{i} is prime" else Option.none)

/-! ### style-check model -/

/-- Style-relevant facts of a Python class, read off the fixture sources:
its name, its method names, and how many bare `except` clauses it
contains. -/
structure PyClassStyle where
  className : String
  methodNames : List String
  bareExceptCount : Nat

/-- The class defined by bad_code.py, as written in the source. -/
def badCalculatorStyle : PyClassStyle :=
  ⟨"badCalculator", ["__init__", "Add", "subtract", "getHistory", "process_input"], 1⟩

/-- The class defined by calculator.py, as written in the source. -/
def calculatorStyle : PyClassStyle :=
  ⟨"Calculator", ["__init__", "add", "subtract", "get_last_result"], 0⟩

/-- Modelled from the spec: the style-checking tool synx runs is not under
src/ (only its fixtures are).  Per the spec it flags naming violations
(class names must be CamelCase, so start with an upper-case letter; method
names must be lower case) and bare exception clauses; a file passes only
with none of these. -/
def styleCheckPasses (c : PyClassStyle) : Bool :=
  c.className.front.isUpper &&
  c.methodNames.all (fun m => !(m.front.isUpper)) &&
  c.bareExceptCount == 0

/-! ### the floating-point slip in is_prime -/

/-- A composite input on which the float-based bound of `is_prime` misses
every factor: the product of 100000000000000000039 and 100000000000000000129
(both prime, so the product has no factor below them).  Its exact integer
square root is 10^20 + 83, just above the smaller factor. -/
def badPrimeInput : Nat := 100000000000000000039 * 100000000000000000129

/-- The value the script's expression `int(num**0.5)` computes at
`badPrimeInput` under IEEE-754 double arithmetic: doubles near 10^20 are
spaced 2^14 = 16384 apart and 10^20 itself is a double; converting
`badPrimeInput` to a double moves it by at most 2^79, so the square root of
the converted value stays within half a spacing of 10^20 and the rounded
result is exactly 10^20 — strictly below the exact integer square root. -/
def floatSqrtBound : Nat := 10 ^ 20

/-! ### invariants used by the proofs -/

/-- Invariant of the memo dictionary during a `fibonacci` run: keys `0` and
`1` are present with their base values, and every entry is a nonnegative key
mapped to the Fibonacci number of that index. -/
def goodMemo (memo : List (Int × Int)) : Prop :=
  memoLookup 0 memo = some 0 ∧ memoLookup 1 memo = some 1 ∧
    ∀ k v, memoLookup k memo = some v → 0 ≤ k ∧ v = fibSpec k.toNat

/-! ## Helper lemmas -/

theorem isqrtAux_eq_sqrt (n : Nat) :
    ∀ fuel i, i * i ≤ n → i + fuel = n → isqrtAux n fuel i = Nat.sqrt n := by
  intro fuel
  induction fuel with
  | zero =>
    intro i hi hsum
    have hin : i = n := by omega
    subst hin
    have h1 : i ≤ 1 := by nlinarith
    interval_cases i
    · rw [isqrtAux, Nat.sqrt_zero]
    · rw [isqrtAux, Nat.sqrt_one]
  | succ fuel ih =>
    intro i hi hsum
    rw [isqrtAux]
    split
    next h =>
      exact ih (i + 1) h (by omega)
    next h =>
      exact Nat.le_antisymm (Nat.le_sqrt.2 hi)
        (Nat.le_of_lt_succ (Nat.sqrt_lt.2 (Nat.not_le.1 h)))

theorem isqrt_eq_sqrt (n : Nat) : isqrt n = Nat.sqrt n :=
  isqrtAux_eq_sqrt n n 0 (Nat.zero_le n) (Nat.zero_add n)

theorem is_prime_iff (num : Int) : is_prime num = true ↔ Nat.Prime num.toNat := by
  by_cases hlt : num < 2
  · rw [is_prime, if_pos hlt]
    have h1 : num.toNat ≤ 1 := by omega
    simp only [Bool.false_eq_true, false_iff]
    intro hp
    exact absurd hp.two_le (by omega)
  · push_neg at hlt
    have hcast : ((num.toNat : Int)) = num := Int.toNat_of_nonneg (by omega)
    have h2 : 2 ≤ num.toNat := by omega
    rw [is_prime, if_neg (by omega), List.all_eq_true]
    have hs1 : 1 ≤ Nat.sqrt num.toNat := Nat.le_sqrt.2 (by omega)
    constructor
    · intro h
      rw [Nat.prime_def_le_sqrt]
      refine ⟨h2, ?_⟩
      intro m hm2 hms hdvd
      have hmem : m ∈ List.range' 2 (isqrt num.toNat + 1 - 2) := by
        rw [List.mem_range'_1, isqrt_eq_sqrt]
        omega
      have hne := h m hmem
      simp only [Bool.not_eq_true', beq_eq_false_iff_ne, ne_eq] at hne
      apply hne
      have hmod0 : num.toNat % m = 0 := Nat.mod_eq_zero_of_dvd hdvd
      rw [← hcast, ← Int.natCast_mod, hmod0]
      rfl
    · intro hp m hmem
      rw [List.mem_range'_1, isqrt_eq_sqrt] at hmem
      have hm2 : 2 ≤ m := hmem.1
      have hms : m ≤ Nat.sqrt num.toNat := by omega
      have hnd : ¬ m ∣ num.toNat := (Nat.prime_def_le_sqrt.1 hp).2 m hm2 hms
      simp only [Bool.not_eq_true', beq_eq_false_iff_ne, ne_eq]
      intro hmod
      apply hnd
      rw [← hcast, ← Int.natCast_mod, Int.natCast_eq_zero] at hmod
      exact Nat.dvd_of_mod_eq_zero hmod

theorem initMemo_good : goodMemo initMemo := by
  refine ⟨rfl, rfl, ?_⟩
  intro k v h
  simp only [initMemo, memoLookup] at h
  split_ifs at h with h0 h1
  · simp only [Option.some.injEq] at h
    subst h0
    subst h
    exact ⟨le_refl 0, rfl⟩
  · simp only [Option.some.injEq] at h
    subst h1
    subst h
    exact ⟨by omega, rfl⟩

theorem goodMemo_cons (memo : List (Int × Int)) (m : Nat) (hgood : goodMemo memo)
    (h2 : 2 ≤ m) : goodMemo (((m : Int), fibSpec m) :: memo) := by
  obtain ⟨g0, g1, gk⟩ := hgood
  refine ⟨?_, ?_, ?_⟩
  · rw [memoLookup, if_neg (by omega)]
    exact g0
  · rw [memoLookup, if_neg (by omega)]
    exact g1
  · intro k v h
    rw [memoLookup] at h
    split_ifs at h with hk
    · simp only [Option.some.injEq] at h
      subst hk
      subst h
      exact ⟨by omega, by rw [Int.toNat_natCast]⟩
    · exact gk k v h

theorem fibMemo_correct :
    ∀ n fuel : Nat, ∀ memo : List (Int × Int), n < fuel → goodMemo memo →
      ∃ memo2, fibMemo fuel (n : Int) memo = some (fibSpec n, memo2) ∧ goodMemo memo2 := by
  intro n
  induction n using Nat.strong_induction_on with
  | _ n ih =>
    intro fuel memo hfuel hgood
    obtain ⟨f, rfl⟩ : ∃ f, fuel = f + 1 := ⟨fuel - 1, by omega⟩
    rw [fibMemo]
    cases hl : memoLookup (n : Int) memo with
    | some v =>
      have hv := hgood.2.2 _ _ hl
      refine ⟨memo, ?_, hgood⟩
      show some (v, memo) = some (fibSpec n, memo)
      rw [hv.2, Int.toNat_natCast]
    | none =>
      have hn0 : n ≠ 0 := by
        rintro rfl
        rw [Nat.cast_zero, hgood.1] at hl
        cases hl
      have hn1 : n ≠ 1 := by
        rintro rfl
        rw [Nat.cast_one, hgood.2.1] at hl
        cases hl
      obtain ⟨m, rfl⟩ : ∃ m, n = m + 2 := ⟨n - 2, by omega⟩
      have c1 : ((m + 2 : ℕ) : ℤ) - 1 = ((m + 1 : ℕ) : ℤ) := by push_cast; ring
      have c2 : ((m + 2 : ℕ) : ℤ) - 2 = ((m : ℕ) : ℤ) := by push_cast; ring
      obtain ⟨memo1, e1, good1⟩ := ih (m + 1) (by omega) f memo (by omega) hgood
      obtain ⟨memo2, e2, good2⟩ := ih m (by omega) f memo1 (by omega) good1
      have hfib : fibSpec (m + 2) = fibSpec (m + 1) + fibSpec m := rfl
      simp only [c1, e1, c2, e2]
      refine ⟨(((m + 2 : ℕ) : ℤ), fibSpec (m + 1) + fibSpec m) :: memo2, ?_, ?_⟩
      · rw [hfib]
      · have hgc := goodMemo_cons memo2 (m + 2) good2 (by omega)
        rw [hfib] at hgc
        exact hgc

theorem fibMemo_neg :
    ∀ fuel : Nat, ∀ m : Int, ∀ memo : List (Int × Int), m < 0 →
      (∀ k v, memoLookup k memo = some v → 0 ≤ k) → fibMemo fuel m memo = Option.none := by
  intro fuel
  induction fuel with
  | zero =>
    intro m memo hm hk
    rfl
  | succ f ih =>
    intro m memo hm hk
    have hl : memoLookup m memo = Option.none := by
      cases hll : memoLookup m memo with
      | none => rfl
      | some v => exact absurd (hk _ _ hll) (by omega)
    rw [fibMemo, hl, ih (m - 1) memo (by omega) hk]

/-! ## Claim theorems -/

set_option maxRecDepth 8000 in
/-- C1: the claim (and test.py's own docstring and comments) says the file
fails to parse because of a missing closing parenthesis and so never prints.
In the committed code every parenthesis is matched: the round-paren scan of
the literal file text balances, and the embedded `__main__` block prints a
nonempty list of lines.  This refutes the claim on the code as it stands and
exhibits the divergence between the code and its own documentation. -/
theorem testPy_parses_and_prints :
    parensBalanced testPyLines = true ∧ runTestPy () ≠ [] := by
  constructor
  · decide
  · decide

set_option maxRecDepth 8000 in
/-- C2: `fibonacci` of valid.py returns 0, 1 and 55 on inputs 0, 1 and 10
(with fuel `n + 1`, which `fibonacci_terminates` shows is enough for the
memoized recursion to bottom out on input `n`). -/
theorem fibonacci_values :
    fibonacci 1 0 = some 0 ∧ fibonacci 2 1 = some 1 ∧ fibonacci 11 10 = some 55 := by
  decide

/-- C3: the claim's universal clause ("True exactly when num is prime")
fails on the program because the trial-division bound `int(num**0.5)` is
computed in floating point.  At the composite `badPrimeInput` the script's
bound is `floatSqrtBound` = 10^20, strictly below the smallest factor
100000000000000000039 and below the exact integer square root that correct
trial division needs, so the loop misses every factor and the script
returns True on a composite — contradicting the claim and the function's
own docstring.  Verified at the failing input: the input is composite, the
factor lies within the exact bound `isqrt badPrimeInput`, and the float
bound strictly undershoots both.  (Under the exact-square-root
idealization the function would be a correct primality test: see
`is_prime_iff`.) -/
theorem is_prime_float_bound_bug :
    ¬ Nat.Prime badPrimeInput ∧
      floatSqrtBound < 100000000000000000039 ∧
      100000000000000000039 ≤ isqrt badPrimeInput ∧
      floatSqrtBound < isqrt badPrimeInput := by
  have h3 : 100000000000000000039 ≤ isqrt badPrimeInput := by
    rw [isqrt_eq_sqrt, badPrimeInput]
    exact Nat.le_sqrt.2 (by norm_num)
  have h2 : floatSqrtBound < 100000000000000000039 := by
    rw [floatSqrtBound]
    norm_num
  refine ⟨?_, h2, h3, by omega⟩
  rw [badPrimeInput]
  exact Nat.not_prime_mul (by norm_num) (by norm_num)

set_option maxRecDepth 8000 in
/-- C4 counterexample: the two files labeled "valid" do not define the same
program — run as standalone scripts, their embeddings print different
output. -/
theorem valid_duplicate_cex : ¬ (runValid () = runCalculator ()) := by
  decide

set_option maxRecDepth 8000 in
/-- C4 amended: the two files labeled "valid" are distinct self-contained
programs; their embeddings are not equivalent — valid.py prints 19 lines of
Fibonacci and primality results, calculator.py prints 3 calculator lines. -/
theorem valid_files_distinct :
    runValid () ≠ runCalculator () ∧
      (runValid ()).length = 19 ∧ (runCalculator ()).length = 3 := by
  refine ⟨?_, ?_, ?_⟩ <;> decide

/-- C5: `process_input` returns the sentinel `None` on every string on which
float conversion fails (the bare except clause), the converted value on
every string on which it succeeds, and the int `0` on `None`. -/
theorem process_input_spec (floatConv : String → Option ℚ) (s : String) :
    (floatConv s = Option.none →
      (badCalculator.process_input floatConv (PyValue.pyStr s)).1 = PyResult.noneVal) ∧
    (∀ q : ℚ, floatConv s = some q →
      (badCalculator.process_input floatConv (PyValue.pyStr s)).1 = PyResult.floatVal q) ∧
    (badCalculator.process_input floatConv PyValue.pyNone).1 = PyResult.intVal 0 := by
  refine ⟨?_, ?_, rfl⟩
  · intro h
    simp [badCalculator.process_input, h]
  · intro q h
    simp [badCalculator.process_input, h]

/-- Witness for C5: both conversion hypotheses discharged at concrete
conversion functions and strings. -/
theorem process_input_spec_witness :
    (badCalculator.process_input (fun _ => Option.none) (PyValue.pyStr "abc")).1 =
        PyResult.noneVal ∧
      (badCalculator.process_input (fun _ => some (5 : ℚ)) (PyValue.pyStr "5")).1 =
        PyResult.floatVal 5 :=
  ⟨(process_input_spec (fun _ => Option.none) "abc").1 rfl,
    (process_input_spec (fun _ => some (5 : ℚ)) "5").2.1 5 rfl⟩

/-- C6: `add` returns `a + b` and appends exactly `a + b` to the history,
leaving all prior entries unchanged; `subtract` likewise with `a - b`. -/
theorem add_subtract_spec (c : Calculator ℚ) (a b : ℚ) :
    (Calculator.add c a b).1 = a + b ∧
      (Calculator.add c a b).2.history = c.history ++ [a + b] ∧
      (Calculator.subtract c a b).1 = a - b ∧
      (Calculator.subtract c a b).2.history = c.history ++ [a - b] :=
  ⟨rfl, rfl, rfl, rfl⟩

/-- C7: `get_last_result` returns `None` exactly when the history is empty,
otherwise the last element of the history — in particular the result of the
most recent `add` — and it never changes the state. -/
theorem get_last_result_spec (c : Calculator ℚ) :
    ((Calculator.get_last_result c).1 = Option.none ↔ c.history = []) ∧
      (∀ x : ℚ, c.history.getLast? = some x → (Calculator.get_last_result c).1 = some x) ∧
      (∀ a b : ℚ, (Calculator.get_last_result (Calculator.add c a b).2).1 = some (a + b)) ∧
      (Calculator.get_last_result c).2 = c := by
  obtain ⟨l⟩ := c
  cases l with
  | nil =>
    refine ⟨by simp [Calculator.get_last_result], ?_, ?_, rfl⟩
    · intro x hx
      simp at hx
    · intro a b
      simp [Calculator.add, Calculator.get_last_result]
  | cons y ys =>
    refine ⟨by simp [Calculator.get_last_result], ?_, ?_, rfl⟩
    · intro x hx
      simp [Calculator.get_last_result, hx]
    · intro a b
      have h1 : (y :: (ys ++ [a + b])).getLast? = some (a + b) := by
        rw [← List.cons_append]
        exact List.getLast?_concat _
      simp [Calculator.add, Calculator.get_last_result, h1]

/-- Witness for C7: the `getLast?` hypothesis discharged on the concrete
one-element history `[4]`. -/
theorem get_last_result_spec_witness :
    (Calculator.get_last_result (⟨[(4 : ℚ)]⟩ : Calculator ℚ)).1 = some 4 :=
  (get_last_result_spec ⟨[(4 : ℚ)]⟩).2.1 4 rfl

/-- C8: the memoized `fibonacci` terminates for every integer `n ≥ 0` (fuel
`n + 1` already suffices, and the value is the Fibonacci number), while for
`n < 0` the inner recursion never reaches the memoized base cases: no amount
of fuel produces a result. -/
theorem fibonacci_terminates :
    (∀ n : Nat, fibonacci (n + 1) (n : Int) = some (fibSpec n)) ∧
      (∀ m : Int, m < 0 → ∀ fuel : Nat, fibonacci fuel m = Option.none) := by
  constructor
  · intro n
    obtain ⟨memo2, he, _⟩ := fibMemo_correct n (n + 1) initMemo (by omega) initMemo_good
    rw [fibonacci, he]
    rfl
  · intro m hm fuel
    rw [fibonacci, fibMemo_neg fuel m initMemo hm fun k v h => (initMemo_good.2.2 k v h).1]
    rfl

/-- Witness for C8: the hypothesis `m < 0` discharged at the concrete input
`-1`, and the termination part applied at the concrete input `5`. -/
theorem fibonacci_terminates_witness :
    fibonacci 3 (-1) = Option.none ∧ fibonacci 6 (5 : Int) = some (fibSpec 5) :=
  ⟨fibonacci_terminates.2 (-1) (by decide) 3, fibonacci_terminates.1 5⟩

/-- C9: each of the four sample scripts is deterministic — its embedded run
is a pure function of its (empty) input, so any two runs print the same
lines; the embedding has no effects beyond the returned stdout lines. -/
theorem scripts_deterministic :
    (∀ u v : Unit, runValid u = runValid v) ∧
      (∀ u v : Unit, runCalculator u = runCalculator v) ∧
      (∀ u v : Unit, runBadCode u = runBadCode v) ∧
      (∀ u v : Unit, runTestPy u = runTestPy v) :=
  ⟨fun _ _ => rfl, fun _ _ => rfl, fun _ _ => rfl, fun _ _ => rfl⟩

/-- C10: bad_code.py fails the spec-modelled style check (lower-case class
name `badCalculator`, upper-case method `Add`, one bare except clause),
while the conforming calculator.py passes the same check. -/
theorem bad_code_fails_style_check :
    styleCheckPasses badCalculatorStyle = false ∧ styleCheckPasses calculatorStyle = true := by
  decide

end Synx
